import Mathlib

/-!
Shallow embedding of the io-da/query in-process query bus, translated from the
Go sources: `resultCore` (flags shared by both result carriers), `Result`
(value accumulation and cache bookkeeping), the typed errors of `errors.go`,
the `MemoryCacheAdapter` TTL store with its adaptive sweep bookkeeping, and the
Bus dispatch/lifecycle.

Conventions of the embedding:
  * Go `time.Time` instants are integers (nanoseconds); the integer `0` plays
    the role of Go's zero `time.Time` (`IsZero`), and `time.Duration` values
    are integers as well, so negative durations are representable.
  * `atomic.CompareAndSwapUint32(p, 0, 1)` on a flag amounts to setting the
    Boolean flag to `true` (it is already `true` otherwise), and
    `atomic.LoadUint32(p) == 1` is reading the Boolean.
  * Go's `map[string]*Result` keyed by `string(CacheKey())` is an association
    list keyed by the byte slice (`List Nat`), with insert-overwrite.
  * A handler mutates the `*Result` it receives only through the public
    `Result` methods (`Handled`, `Done`, `Add`, `Set`); a handler invocation
    is therefore a function from the query and the current result to the list
    of method calls it performs plus the `error` it returns.
-/

namespace IoDaQuery

/-- `resultCore` (result_core.go): the mutable flags shared by both result
carriers: the stop-propagation flag, the handled flag and the fresh flag. -/
structure ResultCore where
  stopPropagation : Bool
  handled : Bool
  fresh : Bool
deriving Repr, DecidableEq

/-- `newResultCore()`: all flags at zero except `fresh`, which is swapped
to 1 on creation. -/
def newResultCore : ResultCore :=
  { stopPropagation := false, handled := false, fresh := true }

/-- `resultCore.Handled()`: CAS the handled flag from 0 to 1. -/
def ResultCore.Handled (r : ResultCore) : ResultCore :=
  { r with handled := true }

/-- `resultCore.Done()`: mark handled, then CAS the stop-propagation flag
from 0 to 1. -/
def ResultCore.Done (r : ResultCore) : ResultCore :=
  { r.Handled with stopPropagation := true }

/-- `resultCore.IsFresh()`. -/
def ResultCore.IsFresh (r : ResultCore) : Bool := r.fresh

/-- `resultCore.IsCached()`. -/
def ResultCore.IsCached (r : ResultCore) : Bool := !r.fresh

/-- `resultCore.propagationStopped()`. -/
def ResultCore.propagationStopped (r : ResultCore) : Bool := r.stopPropagation

/-- `resultCore.isHandled()` (the flag alone; `Result` refines this). -/
def ResultCore.isHandled (r : ResultCore) : Bool := r.handled

/-- `resultCore.loadedFromCache()`: CAS fresh from 1 to 0. -/
def ResultCore.loadedFromCache (r : ResultCore) : ResultCore :=
  { r with fresh := false }

/-- `Result` (result.go): the buffered carrier for synchronous queries — the
embedded `resultCore`, the growable data slice, and the cache bookkeeping
(cache key, cached-at and expires-at instants). Capacity growth of the slice
(`increaseCapacity`, a 1.1x reallocation) is a tuning detail with no
observable effect on the sequence of values and is not represented. -/
structure Result (V : Type) where
  core : ResultCore
  data : List V
  cacheKey : List Nat
  cachedAt : Int
  expiresAt : Int
deriving Repr, DecidableEq

/-- `newResult()`: fresh core, empty data, no cache bookkeeping. -/
def newResult {V : Type} : Result V :=
  { core := newResultCore, data := [], cacheKey := [], cachedAt := 0, expiresAt := 0 }

/-- `newCacheableResult(query)`: fresh core, empty data, the query's cache key. -/
def newCacheableResult {V : Type} (cacheKey : List Nat) : Result V :=
  { core := newResultCore, data := [], cacheKey := cacheKey, cachedAt := 0, expiresAt := 0 }

/-- `Result.Set(data)`: replace the whole data slice. -/
def Result.Set {V : Type} (r : Result V) (data : List V) : Result V :=
  { r with data := data }

/-- `Result.Add(data)`: append one entry to the data slice. -/
def Result.Add {V : Type} (r : Result V) (v : V) : Result V :=
  { r with data := r.data ++ [v] }

/-- `Result.First()`: the first value, or Go `nil` (here `none`) when empty. -/
def Result.First {V : Type} (r : Result V) : Option V := r.data.head?

/-- `Result.All()`: the data slice. -/
def Result.All {V : Type} (r : Result V) : List V := r.data

/-- `Result.expires(at)`: stamp the expires-at instant. -/
def Result.expires {V : Type} (r : Result V) (t : Int) : Result V :=
  { r with expiresAt := t }

/-- `Result.cached(at)`: stamp the cached-at instant. -/
def Result.cached {V : Type} (r : Result V) (t : Int) : Result V :=
  { r with cachedAt := t }

/-- `Result.isHandled()`: `len(res.data) > 0 || atomic.LoadUint32(res.handled) == 1`. -/
def Result.isHandled {V : Type} (r : Result V) : Bool :=
  decide (r.data.length > 0) || r.core.handled

/-- `Result.Handled()` via the embedded core. -/
def Result.Handled {V : Type} (r : Result V) : Result V :=
  { r with core := r.core.Handled }

/-- `Result.Done()` via the embedded core. -/
def Result.Done {V : Type} (r : Result V) : Result V :=
  { r with core := r.core.Done }

/-- `Result.propagationStopped()` via the embedded core. -/
def Result.propagationStopped {V : Type} (r : Result V) : Bool :=
  r.core.stopPropagation

/-- One call to a public mutating method of `Result`: the only ways a handler
can touch the carrier it is given. -/
inductive ResultOp (V : Type) where
  | handled
  | done
  | add (v : V)
  | set (data : List V)
deriving Repr, DecidableEq

/-- Perform one public method call on a `Result`. -/
def Result.applyOp {V : Type} (r : Result V) : ResultOp V → Result V
  | .handled => r.Handled
  | .done => r.Done
  | .add v => r.Add v
  | .set d => r.Set d

/-- Perform a sequence of public method calls, left to right. -/
def Result.applyOps {V : Type} (r : Result V) (ops : List (ResultOp V)) : Result V :=
  ops.foldl Result.applyOp r

/-- The typed errors of errors.go, plus a constructor for the opaque `error`
values surfaced by handlers (Go's `error` interface subsumes both; the engine
passes handler errors through unchanged). `noQueryHandlersFound` and
`queryTimedOut` carry the query, as the structs in errors.go do. -/
inductive QueryError (Q E : Type) where
  | invalidQuery
  | busNotInitialized
  | busIsShuttingDown
  | noQueryHandlersFound (query : Q)
  | queryTimedOut (query : Q)
  | handlerError (e : E)
deriving Repr, DecidableEq

/-- The `Cacheable` capability of a query: a cache key (`CacheKey() []byte`)
and a cache duration (`CacheDuration() time.Duration`, integer nanoseconds,
possibly zero or negative). -/
structure Cacheable where
  cacheKey : List Nat
  cacheDuration : Int
deriving Repr, DecidableEq

/-- `time.Hour` in nanoseconds. -/
def timeHour : Int := 3600000000000

/-- `MemoryCacheAdapter` (memory_cache_adapter.go): the keyed store of cached
results, the capacity-1 wake channel of the cleaner routine (`cleanerSignal`
counts its buffered messages, so it is 0 or 1), the shutting-down flag, and
the soonest tracked expiry (`sleepUntil`, with 0 for the zero `time.Time`).
The reusable `sleepTimer` carries no state beyond the duration it is armed
with, which `determineSleepDuration` computes. -/
structure MemoryCacheAdapter (V : Type) where
  cachedResults : List (List Nat × Result V)
  cleanerSignal : Nat
  shuttingDown : Bool
  sleepUntil : Int
deriving Repr, DecidableEq

/-- `NewMemoryCacheAdapter()`: empty store, empty capacity-1 signal channel,
not shutting down, zero sleep-until. -/
def newMemoryCacheAdapter {V : Type} : MemoryCacheAdapter V :=
  { cachedResults := [], cleanerSignal := 0, shuttingDown := false, sleepUntil := 0 }

/-- Go map store `m[k] = res`: overwrite the binding if the key is present,
otherwise add it (on the unique-keyed stores a Go map maintains, replacing
the one binding for the key is exactly the map update). -/
def mapStore {V : Type} : List (List Nat × Result V) → List Nat → Result V →
    List (List Nat × Result V)
  | [], k, res => [(k, res)]
  | p :: t, k, res => if p.1 = k then (k, res) :: t else p :: mapStore t k res

/-- Go map lookup `m[k]`. -/
def mapLookup {V : Type} (m : List (List Nat × Result V)) (k : List Nat) :
    Option (Result V) :=
  (m.find? (fun p => p.1 = k)).map (fun p => p.2)

/-- `MemoryCacheAdapter.clean()`: the non-blocking send on the capacity-1
cleaner-signal channel — `select { case ad.cleanerSignal <- true: default: }`.
The send succeeds only when the buffer is not full; a redundant signal is
dropped. -/
def MemoryCacheAdapter.clean {V : Type} (ad : MemoryCacheAdapter V) :
    MemoryCacheAdapter V :=
  if ad.cleanerSignal < 1 then { ad with cleanerSignal := ad.cleanerSignal + 1 } else ad

/-- `MemoryCacheAdapter.updateSleepUntil(expiresAt)`: keep the sooner of the
current target and the given expiry (the zero instant meaning "unset"). -/
def MemoryCacheAdapter.updateSleepUntil {V : Type} (ad : MemoryCacheAdapter V)
    (expiresAt : Int) : MemoryCacheAdapter V :=
  if ad.sleepUntil = 0 ∨ expiresAt < ad.sleepUntil then
    { ad with sleepUntil := expiresAt }
  else ad

/-- `MemoryCacheAdapter.Set(qry, res, at)`: under the lock, store the result
under the query's cache key, feed `at + qry.CacheDuration()` to
`updateSleepUntil`, send the non-blocking wake signal (`clean`), and return
`true`. The result itself is not modified. -/
def MemoryCacheAdapter.Set {V : Type} (ad : MemoryCacheAdapter V) (qry : Cacheable)
    (res : Result V) (t : Int) : MemoryCacheAdapter V × Bool :=
  let ad1 := { ad with cachedResults := mapStore ad.cachedResults qry.cacheKey res }
  let ad2 := ad1.updateSleepUntil (t + qry.cacheDuration)
  (ad2.clean, true)

/-- `MemoryCacheAdapter.Get(qry)`: plain keyed lookup, `nil` when absent. -/
def MemoryCacheAdapter.Get {V : Type} (ad : MemoryCacheAdapter V) (qry : Cacheable) :
    Option (Result V) :=
  mapLookup ad.cachedResults qry.cacheKey

/-- `MemoryCacheAdapter.Expire(qry)`: unconditional keyed removal. -/
def MemoryCacheAdapter.Expire {V : Type} (ad : MemoryCacheAdapter V) (qry : Cacheable) :
    MemoryCacheAdapter V :=
  { ad with cachedResults := ad.cachedResults.filter (fun p => p.1 ≠ qry.cacheKey) }

/-- `MemoryCacheAdapter.determineSleepDuration()`: one idle hour when nothing
is cached or no upcoming expiry is tracked, otherwise exactly until the
tracked soonest expiry (`ad.sleepUntil.Sub(time.Now())`). -/
def MemoryCacheAdapter.determineSleepDuration {V : Type} (ad : MemoryCacheAdapter V)
    (now : Int) : Int :=
  if ad.sleepUntil = 0 ∨ ad.cachedResults.length ≤ 0 then timeHour
  else ad.sleepUntil - now

/-- The per-entry body of the scan in `MemoryCacheAdapter.cleaner()`: delete
the entry when its cached-at is set and `now` is past its expiry
(`!res.CachedAt().IsZero() && now.After(res.ExpiresAt())`), otherwise keep it
and feed its expiry to `updateSleepUntil`. -/
def cleanerStep {V : Type} (now : Int) (a : MemoryCacheAdapter V)
    (p : List Nat × Result V) : MemoryCacheAdapter V :=
  if p.2.cachedAt ≠ 0 ∧ now > p.2.expiresAt then a
  else { a.updateSleepUntil p.2.expiresAt with cachedResults := a.cachedResults ++ [p] }

/-- One cycle of `MemoryCacheAdapter.cleaner()` under the lock: reset
`sleepUntil` to the zero instant, then scan every entry with `cleanerStep`.
Go's delete-during-range over the map is modelled by rebuilding the store
from the kept entries (the per-entry decisions are independent, so this is
the same map). -/
def MemoryCacheAdapter.cleanerCycle {V : Type} (ad : MemoryCacheAdapter V)
    (now : Int) : MemoryCacheAdapter V :=
  ad.cachedResults.foldl (cleanerStep now)
    { ad with sleepUntil := 0, cachedResults := [] }

/-- A query `Handler` (handler.go: `Handle(qry Query, res *Result) error`).
The handler may read the query and the carrier; its effect on the carrier is
the sequence of public `Result` method calls it performs, and it returns an
optional opaque error. -/
def Handler (Q V E : Type) : Type :=
  Q → Result V → List (ResultOp V) × Option E

/-- An `ErrorHandler` (error_handler.go: `Handle(qry Query, err error)`), a
passive sink: its `handle` folds each delivered pair into its private state. -/
structure ErrorHandler (Q E S : Type) where
  handle : Q → QueryError Q E → S → S
  state : S

/-- The `Bus`: the handler chain and error-handler list (both fixed before
traffic), the lifecycle flags, the worker counter, and a ghost counter
`drains` recording how many times the private drain (`shutdown()`) ran. -/
structure Bus (Q V E S : Type) where
  handlers : List (Handler Q V E)
  errorHandlers : List (ErrorHandler Q E S)
  initialized : Bool
  shuttingDown : Bool
  ongoingQueries : Nat
  workers : Nat
  drains : Nat

/-- `Bus.error(qry, err)` (bus.go): forward the error to every registered
error handler, in order. -/
def Bus.error {Q V E S : Type} (bus : Bus Q V E S) (q : Q) (e : QueryError Q E) :
    Bus Q V E S :=
  { bus with
      errorHandlers :=
        bus.errorHandlers.map (fun eh => { eh with state := eh.handle q e eh.state }) }

/-- The handler-chain walk shared by both dispatch paths. Starting at chain
position `i` with carrier `res`: invoke each handler in order; if it returns
an error, stop with that error; if after the call the carrier's
stop-propagation flag is set, stop with no error. Returns the final carrier,
the optional handler error, and the list of invoked chain positions. -/
def queryLoop {Q V E : Type} (q : Q) (hdls : List (Handler Q V E)) (res : Result V)
    (i : Nat) : Result V × Option E × List Nat :=
  match hdls with
  | [] => (res, none, [])
  | h :: rest =>
    let call := h q res
    let res1 := res.applyOps call.1
    match call.2 with
    | some e => (res1, some e, [i])
    | none =>
      if res1.propagationStopped then (res1, none, [i])
      else
        let out := queryLoop q rest res1 (i + 1)
        (out.1, out.2.1, i :: out.2.2)

/-- What one dispatch produced: the final carrier, the error (if any), the
chain positions invoked, and the bus with its error handlers after routing. -/
structure DispatchOut (Q V E S : Type) where
  res : Result V
  err : Option (QueryError Q E)
  invoked : List Nat
  bus : Bus Q V E S

/-- Modelled from the spec: the current `Bus.query` chain dispatch (section
4.1) — the current bus.go is absent from src, which holds only historical
versions of it; its declarations (handler.go, error_handler.go) and tests
(bus_test.go, utils_test.go) are present. For each handler in order: invoke
it; if it returns an error, forward the error to every registered error
handler and stop; if after the call the carrier's stop-propagation flag is
set, stop with no error. After the loop, if the carrier is not handled,
synthesize the no-handlers-found error carrying the query and forward it to
the error handlers. The produced error is also returned (the synchronous
caller receives it). -/
def Bus.query {Q V E S : Type} (bus : Bus Q V E S) (q : Q) : DispatchOut Q V E S :=
  let out := queryLoop q bus.handlers newResult 0
  match out.2.1 with
  | some e =>
    { res := out.1, err := some (QueryError.handlerError e), invoked := out.2.2,
      bus := bus.error q (QueryError.handlerError e) }
  | none =>
    if out.1.isHandled then
      { res := out.1, err := none, invoked := out.2.2, bus := bus }
    else
      { res := out.1, err := some (QueryError.noQueryHandlersFound q),
        invoked := out.2.2,
        bus := bus.error q (QueryError.noQueryHandlersFound q) }

/-- Modelled from the spec: the current synchronous `Bus.Query` entry point
(section 4.4) — the current bus.go is absent from src. Validate the query
non-nil (`none` models Go `nil`, rejected with the invalid-query error before
anything else runs); then dispatch the handler chain on the caller's own
thread against a fresh carrier. No lifecycle state is consulted. Cache
probing concerns only `Cacheable` queries and is modelled separately by
`MemoryCacheAdapter`; this entry point covers the dispatch path. -/
def Bus.Query {Q V E S : Type} (bus : Bus Q V E S) (q : Option Q) : DispatchOut Q V E S :=
  match q with
  | none =>
    { res := newResult, err := some QueryError.invalidQuery, invoked := [], bus := bus }
  | some q => bus.query q

/-- Modelled from the spec: the validation prefix of the current streaming
`Bus.IteratorQuery` entry point (section 4.4) — the current bus.go is absent
from src. Validate non-nil first (invalid-query error, before any lifecycle
check, as in bus_test.go), then require the pool to be running and the bus
not shutting down; on success the work item is enqueued for the worker pool
(the Boolean); no handler is invoked by the entry point itself. -/
def Bus.IteratorQuery {Q V E S : Type} (bus : Bus Q V E S) (q : Option Q) :
    Option (QueryError Q E) × Bool :=
  match q with
  | none => (some QueryError.invalidQuery, false)
  | some _ =>
    if !bus.initialized then (some QueryError.busNotInitialized, false)
    else if bus.shuttingDown then (some QueryError.busIsShuttingDown, false)
    else (none, true)

/-- The private `Bus.shutdown()` drain (bus.go): wait until no query is
ongoing (in this sequential model the wait loop is a no-op once observed),
push one `nil` sentinel per live worker and collect each exit acknowledgment
until the worker counter reaches zero, then CAS `initialized` from 1 to 0.
The ghost counter `drains` records that the drain ran. -/
def Bus.shutdown {Q V E S : Type} (bus : Bus Q V E S) : Bus Q V E S :=
  { bus with workers := 0, initialized := false, drains := bus.drains + 1 }

/-- `Bus.Shutdown()` (bus.go): the single atomic guard —
`if atomic.CompareAndSwapUint32(bus.shuttingDown, 0, 1) { bus.shutdown() }`.
Only the caller whose CAS observes the not-shutting-down state performs the
drain; every other call leaves the bus untouched. -/
def Bus.Shutdown {Q V E S : Type} (bus : Bus Q V E S) : Bus Q V E S :=
  if bus.shuttingDown = false then ({ bus with shuttingDown := true }).shutdown
  else bus

/-! ### Helper lemmas about the result carrier -/

/-- Auxiliary: the method calls that explicitly mark the result handled. -/
def ResultOp.marks {V : Type} : ResultOp V → Bool
  | .handled => true
  | .done => true
  | .add _ => false
  | .set _ => false

/-- Auxiliary: the method call that stops propagation. -/
def ResultOp.stops {V : Type} : ResultOp V → Bool
  | .done => true
  | _ => false

theorem applyOps_cons {V : Type} (r : Result V) (op : ResultOp V) (t : List (ResultOp V)) :
    r.applyOps (op :: t) = (r.applyOp op).applyOps t := rfl

theorem applyOp_handled {V : Type} (r : Result V) (op : ResultOp V) :
    (r.applyOp op).core.handled = (r.core.handled || op.marks) := by
  cases op <;>
    simp [Result.applyOp, Result.Handled, Result.Done, Result.Add, Result.Set,
      ResultCore.Handled, ResultCore.Done, ResultOp.marks]

theorem applyOp_stop {V : Type} (r : Result V) (op : ResultOp V) :
    (r.applyOp op).core.stopPropagation = (r.core.stopPropagation || op.stops) := by
  cases op <;>
    simp [Result.applyOp, Result.Handled, Result.Done, Result.Add, Result.Set,
      ResultCore.Handled, ResultCore.Done, ResultOp.stops]

theorem applyOps_handled {V : Type} (ops : List (ResultOp V)) (r : Result V) :
    (r.applyOps ops).core.handled = (r.core.handled || ops.any ResultOp.marks) := by
  induction ops generalizing r with
  | nil => simp [Result.applyOps]
  | cons op t ih =>
    rw [applyOps_cons, ih, applyOp_handled]
    simp [Bool.or_assoc]

theorem applyOps_stop {V : Type} (ops : List (ResultOp V)) (r : Result V) :
    (r.applyOps ops).core.stopPropagation
      = (r.core.stopPropagation || ops.any ResultOp.stops) := by
  induction ops generalizing r with
  | nil => simp [Result.applyOps]
  | cons op t ih =>
    rw [applyOps_cons, ih, applyOp_stop]
    simp [Bool.or_assoc]

theorem marks_of_stops {V : Type} (op : ResultOp V) :
    op.stops = true → op.marks = true := by
  cases op <;> simp [ResultOp.stops, ResultOp.marks]

/-- The handled-before-stopped invariant of a carrier. -/
def flagsOk {V : Type} (r : Result V) : Prop :=
  r.core.stopPropagation = true → r.core.handled = true

theorem applyOps_flagsOk {V : Type} (ops : List (ResultOp V)) (r : Result V)
    (h : flagsOk r) : flagsOk (r.applyOps ops) := by
  intro hstop
  rw [applyOps_stop] at hstop
  rw [applyOps_handled]
  rcases Bool.or_eq_true_iff.mp hstop with h1 | h2
  · simp [h h1]
  · rcases List.any_eq_true.mp h2 with ⟨op, hmem, hop⟩
    have := marks_of_stops op hop
    simp [List.any_eq_true]
    exact Or.inr ⟨op, hmem, this⟩

theorem isHandled_of_handled {V : Type} (r : Result V)
    (h : r.core.handled = true) : r.isHandled = true := by
  simp [Result.isHandled, h]

/-- C9: for every result carrier and every sequence of the public result
operations (`Handled`, `Done`, `Add`, `Set`) applied to a fresh carrier,
whenever the stop-propagation flag is set, the handled predicate also holds;
`Done` marks handled as well as stopping propagation; and no operation ever
clears either flag. -/
theorem stop_propagation_implies_handled :
    (∀ (V : Type) (ops : List (ResultOp V)),
        ((newResult (V := V)).applyOps ops).propagationStopped = true →
          ((newResult (V := V)).applyOps ops).isHandled = true)
    ∧ (∀ (V : Type) (r : Result V),
        (r.Done).core.handled = true ∧ (r.Done).core.stopPropagation = true)
    ∧ (∀ (V : Type) (r : Result V) (op : ResultOp V),
        (r.core.handled = true → (r.applyOp op).core.handled = true)
        ∧ (r.core.stopPropagation = true → (r.applyOp op).core.stopPropagation = true)) := by
  refine ⟨fun V ops h => ?_, fun V r => ?_, fun V r op => ⟨fun h => ?_, fun h => ?_⟩⟩
  · have hok : flagsOk ((newResult (V := V)).applyOps ops) :=
      applyOps_flagsOk ops _ (by intro hc; cases hc)
    exact isHandled_of_handled _ (hok h)
  · exact ⟨rfl, rfl⟩
  · rw [applyOp_handled, h]; rfl
  · rw [applyOp_stop, h]; rfl

/-- C9 witness: the invariant applied to the one-call sequence `[Done()]` on a
fresh carrier over `Nat` values. -/
theorem stop_propagation_implies_handled_witness :
    ((newResult (V := Nat)).applyOps [ResultOp.done]).propagationStopped = true
    ∧ ((newResult (V := Nat)).applyOps [ResultOp.done]).isHandled = true :=
  ⟨by decide, stop_propagation_implies_handled.1 Nat [ResultOp.done] (by decide)⟩

/-- C10: `MemoryCacheAdapter.Set` returns `true` for every query, result and
instant — the in-memory adapter never refuses a store, whatever the declared
cache duration (zero and negative included). -/
theorem memory_cache_adapter_set_returns_true :
    ∀ (V : Type) (ad : MemoryCacheAdapter V) (qry : Cacheable) (res : Result V) (t : Int),
      (ad.Set qry res t).2 = true := by
  intro V ad qry res t
  rfl

/-- C4: for the nil query (`none`), `Bus.Query` returns the invalid-query
error with no handler invoked and the bus untouched, and `Bus.IteratorQuery`
returns the invalid-query error without enqueueing any work item (so no
handler is ever invoked for it), whatever the lifecycle state. -/
theorem nil_query_invalid_query :
    ∀ (Q V E S : Type) (bus : Bus Q V E S),
      (bus.Query none).err = some QueryError.invalidQuery
      ∧ (bus.Query none).invoked = []
      ∧ (bus.Query none).bus = bus
      ∧ (bus.IteratorQuery none).1 = some QueryError.invalidQuery
      ∧ (bus.IteratorQuery none).2 = false := by
  intro Q V E S bus
  exact ⟨rfl, rfl, rfl, rfl, rfl⟩

/-! ### Helper lemmas about the handler-chain walk -/

theorem queryLoop_invoked {Q V E : Type} (q : Q) (hdls : List (Handler Q V E)) :
    ∀ (res : Result V) (i : Nat),
      ∃ n, (queryLoop q hdls res i).2.2 = List.range' i n ∧ n ≤ hdls.length := by
  induction hdls with
  | nil => intro res i; exact ⟨0, rfl, Nat.zero_le _⟩
  | cons h rest ih =>
    intro res i
    rw [queryLoop]
    rcases hc : (h q res).2 with _ | e
    · by_cases hs : (res.applyOps (h q res).1).propagationStopped = true
      · refine ⟨1, ?_, by simp⟩
        simp [hc, hs, List.range'_succ]
      · rcases ih (res.applyOps (h q res).1) (i + 1) with ⟨n, hn, hle⟩
        refine ⟨n + 1, ?_, by simpa using hle⟩
        simp only [hc]
        simp [hs, hn, List.range'_succ]
    · refine ⟨1, ?_, by simp⟩
      simp [hc, List.range'_succ]

theorem queryLoop_flagsOk {Q V E : Type} (q : Q) (hdls : List (Handler Q V E)) :
    ∀ (res : Result V) (i : Nat), flagsOk res → flagsOk (queryLoop q hdls res i).1 := by
  induction hdls with
  | nil => intro res i hok; exact hok
  | cons h rest ih =>
    intro res i hok
    have hok1 : flagsOk (res.applyOps (h q res).1) := applyOps_flagsOk _ _ hok
    rw [queryLoop]
    rcases hc : (h q res).2 with _ | e
    · by_cases hs : (res.applyOps (h q res).1).propagationStopped = true
      · simpa [hc, hs] using hok1
      · simpa [hc, hs] using ih (res.applyOps (h q res).1) (i + 1) hok1
    · simpa [hc] using hok1

theorem queryLoop_append {Q V E : Type} (q : Q) (l1 : List (Handler Q V E)) :
    ∀ (l2 : List (Handler Q V E)) (res r : Result V) (i : Nat),
      queryLoop q l1 res i = (r, none, List.range' i l1.length) →
      r.propagationStopped = false →
      queryLoop q (l1 ++ l2) res i =
        ((queryLoop q l2 r (i + l1.length)).1,
         (queryLoop q l2 r (i + l1.length)).2.1,
         List.range' i l1.length ++ (queryLoop q l2 r (i + l1.length)).2.2) := by
  induction l1 with
  | nil =>
    intro l2 res r i h hr
    rw [queryLoop] at h
    obtain ⟨rfl, -⟩ : res = r ∧ True := by
      simpa using congrArg Prod.fst h
    simp
  | cons h1 t ih =>
    intro l2 res r i h hr
    rw [queryLoop] at h
    rcases hc : (h1 q res).2 with _ | e
    · rw [hc] at h
      by_cases hs : (res.applyOps (h1 q res).1).propagationStopped = true
      · rw [if_pos hs] at h
        have hlen : (1 : Nat) = t.length + 1 := by
          have := congrArg (fun x : Result V × Option E × List Nat => x.2.2.length) h
          simpa [List.length_range'] using this
        have ht : t = [] := by
          cases t with
          | nil => rfl
          | cons a b => simp at hlen
        subst ht
        have hrr : r = res.applyOps (h1 q res).1 := by
          have := congrArg (fun x : Result V × Option E × List Nat => x.1) h
          simpa using this.symm
        rw [hrr] at hr
        rw [hr] at hs
        cases hs
      · rw [if_neg hs] at h
        have h1eq := congrArg (fun x : Result V × Option E × List Nat => x.1) h
        have h2eq := congrArg (fun x : Result V × Option E × List Nat => x.2.1) h
        have h3eq := congrArg (fun x : Result V × Option E × List Nat => x.2.2) h
        simp only [List.length_cons, List.range'_succ] at h1eq h2eq h3eq
        have h3eq' : (queryLoop q t (res.applyOps (h1 q res).1) (i + 1)).2.2
            = List.range' (i + 1) t.length := by
          simpa using h3eq
        have hIH := ih l2 (res.applyOps (h1 q res).1) r (i + 1) ?_ hr
        · show queryLoop q (h1 :: (t ++ l2)) res i = _
          rw [queryLoop, hc, if_neg hs, hIH]
          have harith : i + 1 + t.length = i + (t.length + 1) := by omega
          simp [harith, List.range'_succ]
        · have : queryLoop q t (res.applyOps (h1 q res).1) (i + 1)
              = ((queryLoop q t (res.applyOps (h1 q res).1) (i + 1)).1,
                 (queryLoop q t (res.applyOps (h1 q res).1) (i + 1)).2.1,
                 (queryLoop q t (res.applyOps (h1 q res).1) (i + 1)).2.2) := rfl
          rw [this, h3eq']
          refine congrArg₂ Prod.mk (by simpa using h1eq) (congrArg₂ Prod.mk ?_ rfl)
          simpa using h2eq
    · rw [hc] at h
      have := congrArg (fun x : Result V × Option E × List Nat => x.2.1) h
      simp at this

theorem busQuery_invoked {Q V E S : Type} (bus : Bus Q V E S) (q : Q) :
    (bus.query q).invoked = (queryLoop q bus.handlers newResult 0).2.2 := by
  rcases hc : (queryLoop q bus.handlers newResult 0).2.1 with _ | e
  · by_cases hh : (queryLoop q bus.handlers newResult 0).1.isHandled = true
    · simp [Bus.query, hc, hh]
    · simp [Bus.query, hc, hh]
  · simp [Bus.query, hc]

/-- The state of the carrier and the error handlers after dispatch runs the
full chain from position `i` onward, given a clean prefix run of the first
`i` handlers. Helper for the claims about `Bus.query`. -/
theorem queryLoop_full_of_prefix {Q V E : Type} (q : Q)
    (hdls : List (Handler Q V E)) (i : Nat) (hi : Handler Q V E) (r : Result V)
    (hpre : queryLoop q (hdls.take i) newResult 0 = (r, none, List.range i))
    (hr : r.propagationStopped = false)
    (hget : hdls[i]? = some hi) :
    queryLoop q hdls newResult 0 =
      ((queryLoop q (hi :: hdls.drop (i + 1)) r i).1,
       (queryLoop q (hi :: hdls.drop (i + 1)) r i).2.1,
       List.range i ++ (queryLoop q (hi :: hdls.drop (i + 1)) r i).2.2) := by
  obtain ⟨hlt, hgetE⟩ := List.getElem?_eq_some_iff.mp hget
  have htake : (hdls.take i).length = i := by
    simp [List.length_take]
    omega
  have hpre' : queryLoop q (hdls.take i) newResult 0
      = (r, none, List.range' 0 (hdls.take i).length) := by
    rw [htake, ← List.range_eq_range']
    exact hpre
  have happ := queryLoop_append q (hdls.take i) (hdls.drop i) newResult r 0 hpre' hr
  have hdrop : hdls.drop i = hi :: hdls.drop (i + 1) := by
    rw [List.drop_eq_getElem_cons hlt, hgetE]
  rw [List.take_append_drop] at happ
  rw [happ, hdrop, htake, ← List.range_eq_range']
  simp

/-- C1: handler-chain dispatch. (a) The invoked chain positions are always an
initial segment of the registration order, never more than the chain length.
(b) If the first `i` handlers pass the query on and the `i`-th returns the
error `e`, then dispatch stops right after position `i`, produces that error,
and forwards it to every registered error handler. (c) If instead the `i`-th
handler returns no error but its calls leave the carrier's stop-propagation
flag set, dispatch stops right after position `i`, produces no error, and the
error handlers are untouched. -/
theorem handler_chain_dispatch {Q V E S : Type} (bus : Bus Q V E S) (q : Q) :
    ((bus.query q).invoked = List.range (bus.query q).invoked.length
      ∧ (bus.query q).invoked.length ≤ bus.handlers.length)
    ∧ (∀ (i : Nat) (hi : Handler Q V E) (r : Result V) (e : E),
        queryLoop q (bus.handlers.take i) newResult 0 = (r, none, List.range i) →
        r.propagationStopped = false →
        bus.handlers[i]? = some hi →
        (hi q r).2 = some e →
        (bus.query q).err = some (QueryError.handlerError e)
        ∧ (bus.query q).invoked = List.range (i + 1)
        ∧ (bus.query q).bus.errorHandlers
            = bus.errorHandlers.map
                (fun eh =>
                  { eh with state := eh.handle q (QueryError.handlerError e) eh.state }))
    ∧ (∀ (i : Nat) (hi : Handler Q V E) (r : Result V),
        queryLoop q (bus.handlers.take i) newResult 0 = (r, none, List.range i) →
        r.propagationStopped = false →
        bus.handlers[i]? = some hi →
        (hi q r).2 = none →
        (r.applyOps (hi q r).1).propagationStopped = true →
        (bus.query q).err = none
        ∧ (bus.query q).invoked = List.range (i + 1)
        ∧ (bus.query q).bus = bus) := by
  refine ⟨?_, ?_, ?_⟩
  · obtain ⟨n, hn, hle⟩ := queryLoop_invoked q bus.handlers newResult 0
    rw [busQuery_invoked, hn, List.length_range', ← List.range_eq_range']
    exact ⟨rfl, hle⟩
  · intro i hi r e hpre hr hget he
    have hfull := queryLoop_full_of_prefix q bus.handlers i hi r hpre hr hget
    rw [queryLoop] at hfull
    rw [he] at hfull
    have hfull' : queryLoop q bus.handlers newResult 0
        = (r.applyOps (hi q r).1, some e, List.range (i + 1)) := by
      rw [hfull, List.range_succ]
    refine ⟨?_, ?_, ?_⟩ <;> simp [Bus.query, hfull', Bus.error]
  · intro i hi r hpre hr hget he hs
    have hfull := queryLoop_full_of_prefix q bus.handlers i hi r hpre hr hget
    rw [queryLoop] at hfull
    rw [he] at hfull
    rw [if_pos hs] at hfull
    have hfull' : queryLoop q bus.handlers newResult 0
        = (r.applyOps (hi q r).1, none, List.range (i + 1)) := by
      rw [hfull, List.range_succ]
    have hrok : flagsOk r := by
      have h1 := congrArg (fun x : Result V × Option E × List Nat => x.1) hpre
      simp only at h1
      have hq := queryLoop_flagsOk q (bus.handlers.take i) newResult 0
        (by intro hc; cases hc)
      rw [h1] at hq
      exact hq
    have hok1 : flagsOk (r.applyOps (hi q r).1) := applyOps_flagsOk _ _ hrok
    have hh : (r.applyOps (hi q r).1).isHandled = true :=
      isHandled_of_handled _ (hok1 hs)
    refine ⟨?_, ?_, ?_⟩ <;> simp [Bus.query, hfull', hh]

/-! ### Concrete fixtures for the witnesses (queries, values and opaque
handler errors are `Nat`; an error-handler state is the list of pairs it has
received, mirroring `storeErrorsHandler` of utils_test.go) -/

def hPass : Handler Nat Nat Nat := fun _ _ => ([], none)

def hErr : Handler Nat Nat Nat := fun _ _ => ([ResultOp.add 7], some 42)

def hStop : Handler Nat Nat Nat := fun _ _ => ([ResultOp.done], none)

def ehRec : ErrorHandler Nat Nat (List (Nat × QueryError Nat Nat)) :=
  { handle := fun q e s => s ++ [(q, e)], state := [] }

def busErrW : Bus Nat Nat Nat (List (Nat × QueryError Nat Nat)) :=
  { handlers := [hPass, hErr, hStop], errorHandlers := [ehRec],
    initialized := false, shuttingDown := false,
    ongoingQueries := 0, workers := 1, drains := 0 }

def busStopW : Bus Nat Nat Nat (List (Nat × QueryError Nat Nat)) :=
  { handlers := [hStop, hErr], errorHandlers := [ehRec],
    initialized := false, shuttingDown := false,
    ongoingQueries := 0, workers := 1, drains := 0 }

def busEmptyW : Bus Nat Nat Nat (List (Nat × QueryError Nat Nat)) :=
  { handlers := [], errorHandlers := [ehRec],
    initialized := true, shuttingDown := false,
    ongoingQueries := 0, workers := 1, drains := 0 }

/-- C1 witness: on a three-handler chain whose second handler errors, the
first handler runs cleanly, the error of the second stops dispatch after
position 1 and reaches the recording error handler; on a chain whose first
handler calls `Done()`, dispatch stops after position 0 with no error. -/
theorem handler_chain_dispatch_witness :
    (queryLoop 3 (busErrW.handlers.take 1) newResult 0 = (newResult, none, List.range 1)
      ∧ (newResult (V := Nat)).propagationStopped = false
      ∧ busErrW.handlers[1]? = some hErr
      ∧ (hErr 3 newResult).2 = some 42)
    ∧ ((busErrW.query 3).err = some (QueryError.handlerError 42)
      ∧ (busErrW.query 3).invoked = List.range 2
      ∧ (busErrW.query 3).bus.errorHandlers
          = busErrW.errorHandlers.map
              (fun eh =>
                { eh with state := eh.handle 3 (QueryError.handlerError 42) eh.state }))
    ∧ ((newResult.applyOps (hStop 5 newResult).1).propagationStopped = true
      ∧ (busStopW.query 5).err = none
      ∧ (busStopW.query 5).invoked = List.range 1
      ∧ (busStopW.query 5).bus = busStopW) := by
  have h1 : queryLoop 3 (busErrW.handlers.take 1) newResult 0
      = (newResult, none, List.range 1) := by decide
  have h2 : (newResult (V := Nat)).propagationStopped = false := by decide
  have h3 : busErrW.handlers[1]? = some hErr := rfl
  have h4 : (hErr 3 newResult).2 = some 42 := rfl
  have hb := (handler_chain_dispatch busErrW 3).2.1 1 hErr newResult 42 h1 h2 h3 h4
  have g1 : queryLoop 5 (busStopW.handlers.take 0) newResult 0
      = (newResult, none, List.range 0) := by decide
  have g2 : (newResult (V := Nat)).propagationStopped = false := by decide
  have g3 : busStopW.handlers[0]? = some hStop := rfl
  have g4 : (hStop 5 newResult).2 = none := rfl
  have g5 : (newResult.applyOps (hStop 5 newResult).1).propagationStopped = true := by decide
  have hc := (handler_chain_dispatch busStopW 5).2.2 0 hStop newResult g1 g2 g3 g4 g5
  exact ⟨⟨h1, h2, h3, h4⟩, hb, g5, hc⟩

theorem marks_iff {V : Type} (op : ResultOp V) :
    op.marks = true ↔ (op = ResultOp.handled ∨ op = ResultOp.done) := by
  cases op <;> simp [ResultOp.marks]

/-- C2: a `Result` is handled iff its data sequence holds at least one value
or an explicit marking call (`Handled()` or `Done()`) was performed on it;
and when the full chain dispatch leaves the carrier unhandled, the
no-handlers-found error carrying the query is synthesized and delivered to
every registered error handler. -/
theorem result_handled_iff_and_no_handlers_found {Q V E S : Type}
    (bus : Bus Q V E S) (q : Q) :
    (∀ (ops : List (ResultOp V)),
        ((newResult (V := V)).applyOps ops).isHandled = true
          ↔ (((newResult (V := V)).applyOps ops).data ≠ []
               ∨ ResultOp.handled ∈ ops ∨ ResultOp.done ∈ ops))
    ∧ (∀ (r : Result V),
        queryLoop q bus.handlers newResult 0 = (r, none, List.range bus.handlers.length) →
        r.isHandled = false →
        (bus.query q).err = some (QueryError.noQueryHandlersFound q)
        ∧ (bus.query q).bus.errorHandlers
            = bus.errorHandlers.map
                (fun eh =>
                  { eh with
                    state := eh.handle q (QueryError.noQueryHandlersFound q) eh.state })) := by
  constructor
  · intro ops
    have hh : ((newResult (V := V)).applyOps ops).core.handled = ops.any ResultOp.marks := by
      rw [applyOps_handled]
      simp [newResult, newResultCore]
    rw [Result.isHandled, hh]
    constructor
    · intro h
      rcases Bool.or_eq_true_iff.mp h with h1 | h2
      · left
        have : ((newResult (V := V)).applyOps ops).data.length > 0 := of_decide_eq_true h1
        exact List.ne_nil_of_length_pos this
      · right
        rcases List.any_eq_true.mp h2 with ⟨op, hmem, hop⟩
        rcases (marks_iff op).mp hop with rfl | rfl
        · exact Or.inl hmem
        · exact Or.inr hmem
    · intro h
      rcases h with h1 | h2 | h3
      · have : ((newResult (V := V)).applyOps ops).data.length > 0 :=
          List.length_pos_of_ne_nil h1
        simp [this]
      · have : ops.any ResultOp.marks = true :=
          List.any_eq_true.mpr ⟨_, h2, (marks_iff _).mpr (Or.inl rfl)⟩
        simp [this]
      · have : ops.any ResultOp.marks = true :=
          List.any_eq_true.mpr ⟨_, h3, (marks_iff _).mpr (Or.inr rfl)⟩
        simp [this]
  · intro r hfull hnh
    constructor
    · simp [Bus.query, hfull, hnh]
    · simp [Bus.query, hfull, hnh, Bus.error]

/-- C2 witness: with no handlers registered, the fresh carrier is unhandled
and dispatch produces the no-handlers-found error carrying the query, routed
to the recording error handler. -/
theorem result_handled_iff_and_no_handlers_found_witness :
    (queryLoop 9 busEmptyW.handlers newResult 0
        = (newResult, none, List.range busEmptyW.handlers.length)
      ∧ (newResult (V := Nat)).isHandled = false)
    ∧ (busEmptyW.query 9).err = some (QueryError.noQueryHandlersFound 9)
    ∧ (busEmptyW.query 9).bus.errorHandlers
        = busEmptyW.errorHandlers.map
            (fun eh =>
              { eh with
                state := eh.handle 9 (QueryError.noQueryHandlersFound 9) eh.state }) := by
  have h1 : queryLoop 9 busEmptyW.handlers newResult 0
      = (newResult, none, List.range busEmptyW.handlers.length) := by decide
  have h2 : (newResult (V := Nat)).isHandled = false := by decide
  have hc := (result_handled_iff_and_no_handlers_found busEmptyW 9).2 newResult h1 h2
  exact ⟨⟨h1, h2⟩, hc⟩

/-- C3: dual delivery on the synchronous path. The error `Bus.Query` returns
to its caller is exactly the error the dispatch produced, and whenever that
error exists (a handler error or the no-handlers-found error), it is also
forwarded to every registered error handler. -/
theorem query_dual_delivery {Q V E S : Type} (bus : Bus Q V E S) (q : Q)
    (e : QueryError Q E) :
    (bus.Query (some q)).err = (bus.query q).err
    ∧ ((bus.Query (some q)).err = some e →
        (bus.Query (some q)).bus.errorHandlers
          = bus.errorHandlers.map
              (fun eh => { eh with state := eh.handle q e eh.state })) := by
  refine ⟨rfl, fun h => ?_⟩
  have h' : (bus.query q).err = some e := h
  rcases hc : (queryLoop q bus.handlers newResult 0).2.1 with _ | e'
  · by_cases hh : (queryLoop q bus.handlers newResult 0).1.isHandled = true
    · have : (bus.query q).err = none := by simp [Bus.query, hc, hh]
      rw [this] at h'
      cases h'
    · have : (bus.query q).err = some (QueryError.noQueryHandlersFound q) := by
        simp [Bus.query, hc, hh]
      rw [this] at h'
      obtain rfl : QueryError.noQueryHandlersFound q = e := by
        injection h'
      show (bus.query q).bus.errorHandlers = _
      simp [Bus.query, hc, hh, Bus.error]
  · have : (bus.query q).err = some (QueryError.handlerError e') := by
      simp [Bus.query, hc]
    rw [this] at h'
    obtain rfl : QueryError.handlerError e' = e := by
      injection h'
    show (bus.query q).bus.errorHandlers = _
    simp [Bus.query, hc, Bus.error]

/-- C3 witness: the chain whose second handler returns the opaque error 42 —
`Bus.Query` hands that error to its caller and the recording error handler
receives the same error. -/
theorem query_dual_delivery_witness :
    (busErrW.Query (some 3)).err = some (QueryError.handlerError 42)
    ∧ (busErrW.Query (some 3)).bus.errorHandlers
        = busErrW.errorHandlers.map
            (fun eh =>
              { eh with state := eh.handle 3 (QueryError.handlerError 42) eh.state }) := by
  have h : (busErrW.Query (some 3)).err = some (QueryError.handlerError 42) := by decide
  exact ⟨h, (query_dual_delivery busErrW 3 (QueryError.handlerError 42)).2 h⟩

theorem queryLoop_invoked_ne_nil {Q V E : Type} (q : Q) (h : Handler Q V E)
    (t : List (Handler Q V E)) (res : Result V) (i : Nat) :
    (queryLoop q (h :: t) res i).2.2 ≠ [] := by
  rw [queryLoop]
  rcases hc : (h q res).2 with _ | e
  · by_cases hs : (res.applyOps (h q res).1).propagationStopped = true
    · simp [hs]
    · simp [hs]
  · simp

/-- C6: synchronous dispatch requires no lifecycle transition. `Bus.Query` on
a non-nil query never produces the bus-not-initialized error, its outcome
(error, carrier, invoked positions) is independent of the initialized flag,
and with a non-empty registered chain at least one handler is invoked. -/
theorem query_requires_no_lifecycle {Q V E S : Type} (bus : Bus Q V E S) (q : Q)
    (b : Bool) :
    (bus.Query (some q)).err ≠ some QueryError.busNotInitialized
    ∧ (({ bus with initialized := b }).Query (some q)).err = (bus.Query (some q)).err
    ∧ (({ bus with initialized := b }).Query (some q)).res = (bus.Query (some q)).res
    ∧ (({ bus with initialized := b }).Query (some q)).invoked
        = (bus.Query (some q)).invoked
    ∧ (bus.handlers ≠ [] → (bus.Query (some q)).invoked ≠ []) := by
  have hcomp : ∀ _ : Unit,
      (({ bus with initialized := b }).Query (some q)).err = (bus.Query (some q)).err
      ∧ (({ bus with initialized := b }).Query (some q)).res = (bus.Query (some q)).res
      ∧ (({ bus with initialized := b }).Query (some q)).invoked
          = (bus.Query (some q)).invoked := by
    intro _
    rcases hc : (queryLoop q bus.handlers newResult 0).2.1 with _ | e'
    · by_cases hh : (queryLoop q bus.handlers newResult 0).1.isHandled = true
      · refine ⟨?_, ?_, ?_⟩ <;> simp [Bus.Query, Bus.query, hc, hh]
      · refine ⟨?_, ?_, ?_⟩ <;> simp [Bus.Query, Bus.query, hc, hh]
    · refine ⟨?_, ?_, ?_⟩ <;> simp [Bus.Query, Bus.query, hc]
  refine ⟨?_, (hcomp ()).1, (hcomp ()).2.1, (hcomp ()).2.2, fun hne => ?_⟩
  · rcases hc : (queryLoop q bus.handlers newResult 0).2.1 with _ | e'
    · by_cases hh : (queryLoop q bus.handlers newResult 0).1.isHandled = true
      · simp [Bus.Query, Bus.query, hc, hh]
      · simp [Bus.Query, Bus.query, hc, hh]
    · simp [Bus.Query, Bus.query, hc]
  · show (bus.query q).invoked ≠ []
    rw [busQuery_invoked]
    cases hh : bus.handlers with
    | nil => exact absurd hh hne
    | cons h t => exact queryLoop_invoked_ne_nil q h t newResult 0

/-- C6 witness: an uninitialized bus with a three-handler chain — `Query`
invokes handlers and does not fail with the bus-not-initialized error. -/
theorem query_requires_no_lifecycle_witness :
    busErrW.handlers ≠ []
    ∧ (busErrW.Query (some 3)).invoked ≠ []
    ∧ busErrW.initialized = false
    ∧ (busErrW.Query (some 3)).err ≠ some QueryError.busNotInitialized := by
  have hne : busErrW.handlers ≠ [] := by
    show [hPass, hErr, hStop] ≠ []
    exact List.cons_ne_nil _ _
  refine ⟨hne, (query_requires_no_lifecycle busErrW 3 true).2.2.2.2 hne, rfl,
    (query_requires_no_lifecycle busErrW 3 true).1⟩

/-! ### Shutdown lifecycle -/

theorem shutdown_shuttingDown {Q V E S : Type} (bus : Bus Q V E S) :
    (bus.Shutdown).shuttingDown = true := by
  rw [Bus.Shutdown]
  by_cases h : bus.shuttingDown = false
  · simp [h, Bus.shutdown]
  · simp [h]

theorem shutdown_shutdown {Q V E S : Type} (bus : Bus Q V E S) :
    (bus.Shutdown).Shutdown = bus.Shutdown := by
  rw [Bus.Shutdown]
  simp [shutdown_shuttingDown]

/-- C7: `Shutdown` is idempotent through the single atomic guard — any number
`n ≥ 1` of sequential calls (equivalently, the linearized interleaving of `n`
concurrent callers, each CAS being atomic) leaves the bus exactly as a single
call does; the drain runs precisely once when the first call observes the
not-shutting-down state, and not at all afterwards. -/
theorem shutdown_idempotent {Q V E S : Type} (bus : Bus Q V E S) (n : Nat)
    (hn : 1 ≤ n) :
    Bus.Shutdown^[n] bus = bus.Shutdown
    ∧ (bus.Shutdown).drains
        = bus.drains + (if bus.shuttingDown = true then 0 else 1)
    ∧ ((bus.Shutdown).Shutdown).drains = (bus.Shutdown).drains := by
  have hiter : ∀ (m : Nat), 1 ≤ m → ∀ (b : Bus Q V E S),
      Bus.Shutdown^[m] b = b.Shutdown := by
    intro m
    induction m with
    | zero => intro h; cases h
    | succ k ih =>
      intro _ b
      cases Nat.eq_zero_or_pos k with
      | inl h0 =>
        subst h0
        simp
      | inr hpos =>
        rw [Function.iterate_succ_apply, ih hpos b.Shutdown, shutdown_shutdown]
  refine ⟨hiter n hn bus, ?_, ?_⟩
  · rw [Bus.Shutdown]
    by_cases h : bus.shuttingDown = false
    · simp [h, Bus.shutdown]
    · have := Bool.of_not_eq_false h
      simp [h, this]
  · rw [shutdown_shutdown]

/-- C7 witness: two consecutive `Shutdown` calls on a concrete bus equal a
single call. -/
theorem shutdown_idempotent_witness :
    1 ≤ 2 ∧ Bus.Shutdown^[2] busErrW = busErrW.Shutdown :=
  ⟨by norm_num, (shutdown_idempotent busErrW 2 (by norm_num)).1⟩

/-! ### Cache-adapter lemmas -/

theorem clean_cachedResults {V : Type} (ad : MemoryCacheAdapter V) :
    ad.clean.cachedResults = ad.cachedResults := by
  rw [MemoryCacheAdapter.clean]
  split <;> rfl

theorem clean_sleepUntil {V : Type} (ad : MemoryCacheAdapter V) :
    ad.clean.sleepUntil = ad.sleepUntil := by
  rw [MemoryCacheAdapter.clean]
  split <;> rfl

theorem clean_cleanerSignal {V : Type} (ad : MemoryCacheAdapter V) :
    ad.clean.cleanerSignal
      = if ad.cleanerSignal < 1 then ad.cleanerSignal + 1 else ad.cleanerSignal := by
  rw [MemoryCacheAdapter.clean]
  split <;> simp_all

theorem updateSleepUntil_cachedResults {V : Type} (ad : MemoryCacheAdapter V) (e : Int) :
    (ad.updateSleepUntil e).cachedResults = ad.cachedResults := by
  rw [MemoryCacheAdapter.updateSleepUntil]
  split <;> rfl

theorem updateSleepUntil_cleanerSignal {V : Type} (ad : MemoryCacheAdapter V) (e : Int) :
    (ad.updateSleepUntil e).cleanerSignal = ad.cleanerSignal := by
  rw [MemoryCacheAdapter.updateSleepUntil]
  split <;> rfl

theorem updateSleepUntil_sleepUntil {V : Type} (ad : MemoryCacheAdapter V) (e : Int) :
    (ad.updateSleepUntil e).sleepUntil
      = if ad.sleepUntil = 0 ∨ e < ad.sleepUntil then e else ad.sleepUntil := by
  rw [MemoryCacheAdapter.updateSleepUntil]
  split <;> simp_all

theorem mapLookup_mapStore_self {V : Type} (m : List (List Nat × Result V))
    (k : List Nat) (res : Result V) :
    mapLookup (mapStore m k res) k = some res := by
  induction m with
  | nil => simp [mapStore, mapLookup]
  | cons p t ih =>
    rw [mapStore]
    by_cases hp : p.1 = k
    · rw [if_pos hp]
      simp [mapLookup]
    · rw [if_neg hp]
      simpa [mapLookup, List.find?, hp] using ih

theorem mapLookup_mapStore_ne {V : Type} (m : List (List Nat × Result V))
    (k k' : List Nat) (res : Result V) (h : k' ≠ k) :
    mapLookup (mapStore m k res) k' = mapLookup m k' := by
  induction m with
  | nil => simp [mapStore, mapLookup, List.find?, Ne.symm h]
  | cons p t ih =>
    rw [mapStore]
    by_cases hp : p.1 = k
    · rw [if_pos hp]
      have hk' : ¬(p.1 = k') := by
        rw [hp]
        exact fun hc => h hc.symm
      simp [mapLookup, List.find?, Ne.symm h, hk']
    · rw [if_neg hp]
      by_cases hp' : p.1 = k'
      · simp [mapLookup, List.find?, hp']
      · simpa [mapLookup, List.find?, hp'] using ih

/-- C5 counterexample: `Set` does not stamp the result. Storing a fresh
result (cached-at and expires-at both at the zero instant) at instant 5 under
a query with cache duration 7 leaves the stored result's cached-at at 0, not
5, and its expires-at at 0, not 12 — refuting the claim that
`MemoryCacheAdapter.Set(q, res, now)` stamps the result's cached-at to `now`
and its expires-at to `now` plus the declared duration. -/
theorem set_does_not_stamp_result :
    (((newMemoryCacheAdapter (V := Nat)).Set ⟨[1], 7⟩ newResult 5).1.Get
        ⟨[1], 7⟩).map (fun r => (r.cachedAt, r.expiresAt)) = some (0, 0)
    ∧ ((0 : Int), (0 : Int)) ≠ ((5 : Int), (12 : Int)) := by
  constructor
  · rfl
  · decide

/-- C5 (amended): `Set(q, res, now)` inserts or overwrites the entry under
`q`'s cache key without modifying the stored result (cached-at/expires-at
stamping is the caller's job), leaves every other key untouched, lowers the
adapter's sweep target `sleepUntil` to `now + q`'s declared duration when
that is sooner (or nothing was tracked), sends the non-blocking wake signal
on the capacity-1 channel (a redundant signal is dropped, never blocking the
caller), and returns `true`. -/
theorem memory_cache_adapter_set_amended {V : Type} (ad : MemoryCacheAdapter V)
    (qry : Cacheable) (res : Result V) (t : Int) :
    ((ad.Set qry res t).1.Get qry = some res)
    ∧ ((ad.Set qry res t).2 = true)
    ∧ (∀ k, k ≠ qry.cacheKey →
        mapLookup (ad.Set qry res t).1.cachedResults k = mapLookup ad.cachedResults k)
    ∧ ((ad.Set qry res t).1.sleepUntil
        = if ad.sleepUntil = 0 ∨ t + qry.cacheDuration < ad.sleepUntil
          then t + qry.cacheDuration else ad.sleepUntil)
    ∧ ((ad.Set qry res t).1.cleanerSignal
        = if ad.cleanerSignal < 1 then ad.cleanerSignal + 1 else ad.cleanerSignal)
    ∧ (ad.cleanerSignal ≤ 1 → (ad.Set qry res t).1.cleanerSignal ≤ 1) := by
  have hres : (ad.Set qry res t).1.cachedResults
      = mapStore ad.cachedResults qry.cacheKey res := by
    show (MemoryCacheAdapter.clean _).cachedResults = _
    rw [clean_cachedResults, updateSleepUntil_cachedResults]
  have hsig : (ad.Set qry res t).1.cleanerSignal
      = if ad.cleanerSignal < 1 then ad.cleanerSignal + 1 else ad.cleanerSignal := by
    show (MemoryCacheAdapter.clean _).cleanerSignal = _
    rw [clean_cleanerSignal, updateSleepUntil_cleanerSignal]
  refine ⟨?_, rfl, ?_, ?_, hsig, ?_⟩
  · show mapLookup (ad.Set qry res t).1.cachedResults qry.cacheKey = some res
    rw [hres]
    exact mapLookup_mapStore_self _ _ _
  · intro k hk
    rw [hres]
    exact mapLookup_mapStore_ne _ _ _ _ hk
  · show (MemoryCacheAdapter.clean _).sleepUntil = _
    rw [clean_sleepUntil, updateSleepUntil_sleepUntil]
  · intro hle
    rw [hsig]
    split <;> omega

/-- C5 witness: the amended statement at a concrete store — fresh adapter,
key `[1]`, duration 7, instant 5: the entry is stored unmodified, key `[2]`
is unaffected, the sweep target becomes 12, one wake signal is buffered. -/
theorem memory_cache_adapter_set_amended_witness :
    (([2] : List Nat) ≠ [1]
      ∧ (newMemoryCacheAdapter (V := Nat)).cleanerSignal ≤ 1)
    ∧ ((newMemoryCacheAdapter (V := Nat)).Set ⟨[1], 7⟩ newResult 5).1.Get ⟨[1], 7⟩
        = some newResult
    ∧ mapLookup ((newMemoryCacheAdapter (V := Nat)).Set ⟨[1], 7⟩ newResult 5).1.cachedResults [2]
        = mapLookup (newMemoryCacheAdapter (V := Nat)).cachedResults [2]
    ∧ ((newMemoryCacheAdapter (V := Nat)).Set ⟨[1], 7⟩ newResult 5).1.cleanerSignal ≤ 1 := by
  refine ⟨⟨by decide, by decide⟩,
    (memory_cache_adapter_set_amended newMemoryCacheAdapter ⟨[1], 7⟩ newResult 5).1,
    (memory_cache_adapter_set_amended newMemoryCacheAdapter ⟨[1], 7⟩ newResult 5).2.2.1
      [2] (by decide),
    (memory_cache_adapter_set_amended newMemoryCacheAdapter ⟨[1], 7⟩ newResult 5).2.2.2.2.2
      (by decide)⟩

/-! ### Sweep-cycle lemmas -/

/-- An entry survives the scan when it is not deleted: its cached-at is the
zero instant or `now` is not past its expiry. -/
def survives {V : Type} (now : Int) (p : List Nat × Result V) : Bool :=
  !decide (p.2.cachedAt ≠ 0 ∧ now > p.2.expiresAt)

/-- The arithmetic of folding `updateSleepUntil` over a list of expiry
instants, starting from target `s`. -/
def sleepFold (s : Int) (es : List Int) : Int :=
  es.foldl (fun a e => if a = 0 ∨ e < a then e else a) s

theorem cleanerFold_components {V : Type} (now : Int)
    (l : List (List Nat × Result V)) :
    ∀ a : MemoryCacheAdapter V,
      ((l.foldl (cleanerStep now) a).cachedResults
          = a.cachedResults ++ l.filter (survives now))
      ∧ ((l.foldl (cleanerStep now) a).sleepUntil
          = sleepFold a.sleepUntil ((l.filter (survives now)).map (fun p => p.2.expiresAt)))
      ∧ ((l.foldl (cleanerStep now) a).cleanerSignal = a.cleanerSignal) := by
  induction l with
  | nil => intro a; simp [sleepFold]
  | cons p t ih =>
    intro a
    by_cases hc : p.2.cachedAt ≠ 0 ∧ now > p.2.expiresAt
    · have hs : survives now p = false := by simp [survives, hc]
      have hstep : cleanerStep now a p = a := by rw [cleanerStep, if_pos hc]
      obtain ⟨ih1, ih2, ih3⟩ := ih a
      refine ⟨?_, ?_, ?_⟩ <;>
        simp [List.foldl_cons, hstep, List.filter_cons, hs, ih1, ih2, ih3]
    · have hs : survives now p = true := by simp [survives, hc]
      have hstep : cleanerStep now a p
          = { a.updateSleepUntil p.2.expiresAt with
                cachedResults := a.cachedResults ++ [p] } := by
        rw [cleanerStep, if_neg hc]
      obtain ⟨ih1, ih2, ih3⟩ := ih (cleanerStep now a p)
      have hcr : (cleanerStep now a p).cachedResults = a.cachedResults ++ [p] := by
        rw [hstep]
      have hsu : (cleanerStep now a p).sleepUntil
          = if a.sleepUntil = 0 ∨ p.2.expiresAt < a.sleepUntil then p.2.expiresAt
            else a.sleepUntil := by
        rw [hstep]
        show (a.updateSleepUntil p.2.expiresAt).sleepUntil = _
        exact updateSleepUntil_sleepUntil a p.2.expiresAt
      have hcs : (cleanerStep now a p).cleanerSignal = a.cleanerSignal := by
        rw [hstep]
        show (a.updateSleepUntil p.2.expiresAt).cleanerSignal = _
        exact updateSleepUntil_cleanerSignal a p.2.expiresAt
      refine ⟨?_, ?_, ?_⟩
      · rw [List.foldl_cons, ih1, hcr, List.filter_cons, hs]
        simp
      · rw [List.foldl_cons, ih2, hsu, List.filter_cons, hs]
        simp [sleepFold]
      · rw [List.foldl_cons, ih3, hcs]

theorem cleanerCycle_cachedResults {V : Type} (ad : MemoryCacheAdapter V) (now : Int) :
    (ad.cleanerCycle now).cachedResults = ad.cachedResults.filter (survives now) := by
  have h := (cleanerFold_components now ad.cachedResults
    { ad with sleepUntil := 0, cachedResults := [] }).1
  simpa [MemoryCacheAdapter.cleanerCycle] using h

theorem cleanerCycle_sleepUntil {V : Type} (ad : MemoryCacheAdapter V) (now : Int) :
    (ad.cleanerCycle now).sleepUntil
      = sleepFold 0 ((ad.cachedResults.filter (survives now)).map (fun p => p.2.expiresAt)) := by
  have h := (cleanerFold_components now ad.cachedResults
    { ad with sleepUntil := 0, cachedResults := [] }).2.1
  simpa [MemoryCacheAdapter.cleanerCycle] using h

theorem sleepFold_spec (es : List Int) :
    ∀ s : Int, 0 < s → (∀ e ∈ es, 0 < e) →
      sleepFold s es ∈ s :: es ∧ ∀ x ∈ s :: es, sleepFold s es ≤ x := by
  induction es with
  | nil =>
    intro s _ _
    refine ⟨by simp [sleepFold], ?_⟩
    intro x hx
    simp [sleepFold] at hx ⊢
    omega
  | cons e t ih =>
    intro s hs hp
    have hcons : sleepFold s (e :: t) = sleepFold (if s = 0 ∨ e < s then e else s) t := rfl
    by_cases hlt : e < s
    · have hcond : (if s = 0 ∨ e < s then e else s) = e := if_pos (Or.inr hlt)
      rw [hcons, hcond]
      have he : (0 : Int) < e := hp e (by simp)
      obtain ⟨m1, m2⟩ := ih e he (fun x hx => hp x (by simp [hx]))
      refine ⟨?_, ?_⟩
      · rcases List.mem_cons.mp m1 with h | h
        · simp [h]
        · simp [List.mem_cons, Or.inr (Or.inr h)]
      · intro x hx
        rcases List.mem_cons.mp hx with rfl | hx'
        · calc sleepFold e t ≤ e := m2 e (by simp)
            _ ≤ x := le_of_lt hlt
        · exact m2 x hx'
    · have hcond : (if s = 0 ∨ e < s then e else s) = s := by
        rw [if_neg]
        push_neg
        exact ⟨by omega, by omega⟩
      rw [hcons, hcond]
      obtain ⟨m1, m2⟩ := ih s hs (fun x hx => hp x (by simp [hx]))
      refine ⟨?_, ?_⟩
      · rcases List.mem_cons.mp m1 with h | h
        · simp [h]
        · simp [List.mem_cons, Or.inr (Or.inr h)]
      · intro x hx
        rcases List.mem_cons.mp hx with rfl | hx'
        · exact m2 x (by simp)
        · rcases List.mem_cons.mp hx' with rfl | hx''
          · calc sleepFold s t ≤ s := m2 s (by simp)
              _ ≤ x := by omega
          · exact m2 x (by simp [hx''])

theorem sleepFold_zero_spec (es : List Int) (hne : es ≠ [])
    (hpos : ∀ e ∈ es, 0 < e) :
    sleepFold 0 es ∈ es ∧ (∀ x ∈ es, sleepFold 0 es ≤ x) ∧ 0 < sleepFold 0 es := by
  cases es with
  | nil => exact absurd rfl hne
  | cons e t =>
    have hcons : sleepFold 0 (e :: t) = sleepFold e t := by
      show sleepFold (if (0 : Int) = 0 ∨ e < 0 then e else 0) t = sleepFold e t
      rw [if_pos (Or.inl rfl)]
    have he : (0 : Int) < e := hpos e (by simp)
    obtain ⟨m1, m2⟩ := sleepFold_spec t e he (fun x hx => hpos x (by simp [hx]))
    rw [hcons]
    refine ⟨m1, fun x hx => m2 x hx, ?_⟩
    rcases List.mem_cons.mp m1 with h | h
    · omega
    · exact hpos _ (by simp [h])

/-- C8: sweep sleep computation. After a sweep cycle: if the store is empty
or no upcoming expiry was tracked, the computed sleep is exactly one hour;
otherwise the tracked target is the minimum of the surviving entries' expiry
instants (`updateSleepUntil` keeps the least of all expiries it is given) and
the computed sleep is exactly the interval from `now` until that soonest
expiry. Expiry instants are assumed non-zero (the zero instant means
"unset"). -/
theorem sweep_sleep_computation {V : Type} (ad : MemoryCacheAdapter V) (now : Int)
    (hpos : ∀ p ∈ ad.cachedResults, 0 < p.2.expiresAt) :
    ((ad.cleanerCycle now).cachedResults = [] ∨ (ad.cleanerCycle now).sleepUntil = 0 →
        (ad.cleanerCycle now).determineSleepDuration now = timeHour)
    ∧ ((ad.cleanerCycle now).cachedResults ≠ [] →
        ((ad.cleanerCycle now).sleepUntil
            ∈ (ad.cleanerCycle now).cachedResults.map (fun p => p.2.expiresAt)
          ∧ (∀ p ∈ (ad.cleanerCycle now).cachedResults,
                (ad.cleanerCycle now).sleepUntil ≤ p.2.expiresAt)
          ∧ (ad.cleanerCycle now).determineSleepDuration now
              = (ad.cleanerCycle now).sleepUntil - now)) := by
  constructor
  · intro h
    rcases h with h | h <;>
      simp [MemoryCacheAdapter.determineSleepDuration, h]
  · intro hne
    have hsur : ad.cachedResults.filter (survives now) ≠ [] := by
      rw [← cleanerCycle_cachedResults]
      exact hne
    have hesne : ((ad.cachedResults.filter (survives now)).map
        (fun p => p.2.expiresAt)) ≠ [] := by
      simpa using hsur
    have hespos : ∀ e ∈ (ad.cachedResults.filter (survives now)).map
        (fun p => p.2.expiresAt), 0 < e := by
      intro e he
      rcases List.mem_map.mp he with ⟨p, hp, rfl⟩
      exact hpos p (List.mem_of_mem_filter hp)
    obtain ⟨hmem, hle, hgt⟩ := sleepFold_zero_spec _ hesne hespos
    rw [← cleanerCycle_sleepUntil] at hmem hle hgt
    refine ⟨?_, ?_, ?_⟩
    · rw [cleanerCycle_cachedResults]
      exact hmem
    · intro p hp
      rw [cleanerCycle_cachedResults] at hp
      exact hle _ (List.mem_map.mpr ⟨p, hp, rfl⟩)
    · rw [MemoryCacheAdapter.determineSleepDuration, if_neg]
      push_neg
      refine ⟨by omega, ?_⟩
      have : (ad.cleanerCycle now).cachedResults.length ≠ 0 := by
        simpa [List.length_eq_zero] using hne
      omega

def res10W : Result Nat :=
  { core := newResultCore, data := [3], cacheKey := [1], cachedAt := 1, expiresAt := 10 }

def res4W : Result Nat :=
  { core := newResultCore, data := [4], cacheKey := [2], cachedAt := 1, expiresAt := 4 }

def ad8W : MemoryCacheAdapter Nat :=
  { cachedResults := [([1], res10W), ([2], res4W)], cleanerSignal := 0,
    shuttingDown := false, sleepUntil := 0 }

/-- C8 witness: two stamped entries expiring at 4 and 10, scanned at instant
5 — the entry expired at 4 is evicted, the survivor's expiry 10 becomes the
tracked target, and the computed sleep is exactly until that expiry. -/
theorem sweep_sleep_computation_witness :
    (∀ p ∈ ad8W.cachedResults, 0 < p.2.expiresAt)
    ∧ (ad8W.cleanerCycle 5).cachedResults ≠ []
    ∧ (ad8W.cleanerCycle 5).sleepUntil = 10
    ∧ (ad8W.cleanerCycle 5).determineSleepDuration 5
        = (ad8W.cleanerCycle 5).sleepUntil - 5 := by
  have hpos : ∀ p ∈ ad8W.cachedResults, 0 < p.2.expiresAt := by decide
  have hne : (ad8W.cleanerCycle 5).cachedResults ≠ [] := by decide
  exact ⟨hpos, hne, by decide, ((sweep_sleep_computation ad8W 5 hpos).2 hne).2.2⟩

end IoDaQuery
